import Mathlib

/-!
# UploadPhoto: the image submission workflow

A shallow embedding of `src/components/UploadPhoto.js`: the four state cells of the
component, the two event handlers (`handleImageChange`, `handleSubmit`), the two colour
mappers (`getColor`, `getResultColor`) and the conditional parts of the rendered tree.

Effects are made explicit: a handler returns the next state together with the toasts it
raised and the HTTP requests it issued; the browser's object-URL store is threaded through
`handleImageChange`.

JavaScript numbers are IEEE-754 binary64 values.  A finite one is represented by the rational
it denotes, and every arithmetic result is rounded to the nearest representable value, ties to
even (`roundDouble`).
-/

namespace UploadPhoto

/-! ## JavaScript values -/

/-- The JavaScript values that reach the component's helpers. -/
inductive JSVal where
  | undefined
  | null
  | bool (b : Bool)
  | num (x : ℚ)
  | str (s : String)
  deriving DecidableEq

/-- Truthiness, as used by `!x`, `x || y`, `x && y`. -/
def JSVal.truthy : JSVal → Bool
  | .undefined => false
  | .null => false
  | .bool b => b
  | .num x => decide (x ≠ 0)
  | .str s => decide (s ≠ "")

/-- The operator `a || b`. -/
def JSVal.or (a b : JSVal) : JSVal := if a.truthy then a else b

/-! ## binary64 arithmetic -/

/-- The exponent of the unit in the last place of the binary64 value nearest to `x`:
53 significant bits, with the subnormal range starting below `2 ^ (-1022)`. -/
def ulpExp (x : ℚ) : ℤ := max (Int.log 2 |x|) (-1022) - 52

/-- Rounding to the nearest integer, ties to the even one. -/
def roundHalfEven (m : ℚ) : ℤ :=
  if m - ⌊m⌋ < 1 / 2 then ⌊m⌋
  else if 1 / 2 < m - ⌊m⌋ then ⌊m⌋ + 1
  else if ⌊m⌋ % 2 = 0 then ⌊m⌋ else ⌊m⌋ + 1

/-- The binary64 value nearest to the rational `x` (round to nearest, ties to even).
Overflow to an infinity, which happens from `2 ^ 1024` on, is not represented. -/
def roundDouble (x : ℚ) : ℚ := roundHalfEven (x / 2 ^ ulpExp x) * 2 ^ ulpExp x

/-- The number obtained by parsing a JSON numeric literal whose decimal value is `q`. -/
def jsonNumber (q : ℚ) : ℚ := roundDouble q

/-- The operator `a * b` on numbers. -/
def jsMul (a b : ℚ) : ℚ := roundDouble (a * b)

/-! ## Decimal text -/

/-- The decimal digits of `n`, most significant first; `fuel` bounds the number of digits. -/
def digitsAux : ℕ → ℕ → List Char
  | 0, n => [Nat.digitChar (n % 10)]
  | fuel + 1, n =>
    if n < 10 then [Nat.digitChar n] else digitsAux fuel (n / 10) ++ [Nat.digitChar (n % 10)]

/-- The decimal digits of `n`, most significant first. -/
def decimalDigits (n : ℕ) : List Char := digitsAux n n

/-- The text of `n` tenths: the integer part, a point, one fractional digit. -/
def fixedText (n : ℕ) : String :=
  String.mk (decimalDigits (n / 10) ++ ['.', Nat.digitChar (n % 10)])

/-- The integer `n` for which `n / 10` is closest to `|x|`, the larger one on a tie. -/
def tenths (x : ℚ) : ℕ := ⌊|x| * 10 + 1 / 2⌋.toNat

/-- The method call `x.toFixed(1)` on a finite number of magnitude below `10 ^ 21`: a minus
sign when `x < 0`, then the nearest number of tenths written with one fractional digit.
(From `10 ^ 21` on the method switches to exponent notation, which is not represented.) -/
def toFixed1 (x : ℚ) : String :=
  if x < 0 then "-" ++ fixedText (tenths x) else fixedText (tenths x)

/-- The value of a decimal digit character. -/
def digitValue (c : Char) : Option ℕ :=
  if '0' ≤ c ∧ c ≤ '9' then some (c.toNat - '0'.toNat) else none

/-- Reads a run of decimal digits, continuing from the value `acc`. -/
def readDigits (acc : ℕ) : List Char → Option ℕ
  | [] => some acc
  | c :: cs =>
    match digitValue c with
    | some d => readDigits (acc * 10 + d) cs
    | none => none

/-- The value of an unsigned decimal literal `digits`, `digits.digits`, `digits.` or
`.digits`. -/
def parseUnsigned (cs : List Char) : Option ℚ :=
  match cs.takeWhile (fun c => c != '.'), cs.dropWhile (fun c => c != '.') with
  | [], [] => none
  | ip, [] => (readDigits 0 ip).map (fun i => (i : ℚ))
  | ip, _ :: fp =>
    if ip = [] ∧ fp = [] then none
    else
      match readDigits 0 ip, readDigits 0 fp with
      | some i, some f => some ((i : ℚ) + (f : ℚ) / 10 ^ fp.length)
      | _, _ => none

/-- The value of a decimal literal with an optional sign. -/
def parseDecimal : List Char → Option ℚ
  | '-' :: cs => (parseUnsigned cs).map (fun v => -v)
  | '+' :: cs => parseUnsigned cs
  | cs => parseUnsigned cs

/-- The conversion of a string to a number: the empty string is `0`, a decimal literal is the
binary64 value nearest to it, and `none` stands for `NaN`.  Only the literal forms that occur in
this component are read (no surrounding white space, exponent part, radix prefix or
`Infinity`); any other text yields `NaN`. -/
def stringToNumber (s : String) : Option ℚ :=
  if s = "" then some 0 else (parseDecimal s.data).map roundDouble

/-- The conversion `ToNumber`; `none` stands for `NaN`. -/
def JSVal.toNumber : JSVal → Option ℚ
  | .undefined => none
  | .null => some 0
  | .bool b => some (if b then 1 else 0)
  | .num x => some x
  | .str s => stringToNumber s

/-- The comparison `a > b` of a value with a number; it is false when `a` converts to `NaN`. -/
def jsGt (a : JSVal) (b : ℚ) : Bool :=
  match a.toNumber with
  | some x => decide (b < x)
  | none => false

/-! ## Presentation mappers -/

/-- The colour of the certainty ring. -/
def getColor (probability : JSVal) : String :=
  if jsGt probability 75 then "green.400"
  else if jsGt probability 50 then "orange.400"
  else "red.400"

/-- The colour of the diagnosis text; `switch` compares with `===`. -/
def getResultColor (result : JSVal) : String :=
  if result = .str "Normal" then "blue.500"
  else if result = .str "Benign" then "green.500"
  else if result = .str "Malign" then "red.600"
  else "gray.400"

/-! ## Component state and effects -/

/-- A file picked in the file input: its name and the identity of its contents. -/
structure File where
  name : String
  blob : ℕ
  deriving DecidableEq

/-- The four `useState` cells of the component. -/
structure State where
  /-- The cell `image`: `null` or the chosen file. -/
  image : Option File
  /-- The cell `imagePreview`: an object URL, initially the empty string. -/
  imagePreview : String
  /-- The cell `result`: initially the empty string, later an entry of `clasification`. -/
  result : JSVal
  /-- The cell `probability`: initially the empty string, later the text made by `toFixed`. -/
  probability : String
  deriving DecidableEq

/-- The state of a freshly mounted component. -/
def State.initial : State :=
  { image := none, imagePreview := "", result := .str "", probability := "" }

/-- The severity of a toast. -/
inductive Status where
  | success
  | error
  deriving DecidableEq

/-- The argument of a `toast` call; an absent `description` is `undefined`. -/
structure Toast where
  title : String
  description : JSVal
  status : Status
  duration : ℕ
  isClosable : Bool
  deriving DecidableEq

/-- The `axios.post` call: target, the form field `file`, content type, timeout in ms. -/
structure Request where
  url : String
  file : File
  contentType : String
  timeout : ℕ
  deriving DecidableEq

/-- The body of a fulfilled response that has the shape of the service contract: an integer
`prediction` and a numeric `probability`, both as written on the wire.  Bodies of another
shape (a missing or non-numeric field, a `null` body) are not represented. -/
structure PredictBody where
  prediction : ℤ
  probability : ℚ

/-- The `response` of a rejected request.  `data` is `none` when the body is `null` or
`undefined`, and otherwise holds the value of the body's `message` property (`undefined` when
the body has none). -/
structure ErrorResponse where
  status : ℕ
  data : Option JSVal

/-- The error thrown by a rejected request: `response` is absent for a network failure or a
timeout. -/
structure AxiosError where
  message : String
  response : Option ErrorResponse

/-- How the awaited request settles. -/
inductive Outcome where
  | resolved (data : PredictBody)
  | rejected (error : AxiosError)

/-- What a handler run produces: the next state, the toasts raised, the requests issued. -/
structure Step where
  state : State
  toasts : List Toast
  posts : List Request

/-- The browser's object-URL store: the URLs created and not revoked, and how many URLs have
been created so far. -/
structure Browser where
  allocated : List String
  minted : ℕ

/-- The call `URL.createObjectURL(file)`: a new URL enters the store and is returned.  `mint k`
is the text of the `k`-th URL the browser hands out. -/
def createObjectURL (mint : ℕ → String) (b : Browser) (_file : File) : String × Browser :=
  (mint b.minted, { allocated := b.allocated ++ [mint b.minted], minted := b.minted + 1 })

/-! ## Event handlers -/

/-- The handler `handleImageChange`; `file` is `e.target.files?.[0]`. -/
def handleImageChange (mint : ℕ → String) (b : Browser) (s : State) (file : Option File) :
    State × Browser :=
  match file with
  | some f =>
    let (url, b1) := createObjectURL mint b f
    ({ s with image := some f, imagePreview := url }, b1)
  | none => (s, b)

/-- The toast of the guard `if (!image)`. -/
def noImageToast : Toast :=
  { title := "No image uploaded", description := .str "Please upload an image to check.",
    status := .error, duration := 5000, isClosable := true }

/-- The toast raised after the response has been stored. -/
def successToast : Toast :=
  { title := "Image analysis successful", description := .undefined,
    status := .success, duration := 5000, isClosable := true }

/-- The expression `error.response?.data?.message`. -/
def serverMessage (error : AxiosError) : JSVal :=
  match error.response with
  | none => .undefined
  | some r =>
    match r.data with
    | none => .undefined
    | some m => m

/-- The toast of the `catch` block. -/
def errorToast (error : AxiosError) : Toast :=
  { title := "Error uploading image",
    description := (serverMessage error).or (.str error.message),
    status := .error, duration := 5000, isClosable := true }

/-- The lookup `clasification[prediction]`. -/
def clasification (prediction : ℤ) : JSVal :=
  if prediction = 0 then .str "Normal"
  else if prediction = 1 then .str "Benign"
  else if prediction = 2 then .str "Malign"
  else .undefined

/-- The request built by `handleSubmit` for the file `image`. -/
def predictRequest (image : File) : Request :=
  { url := "http://127.0.0.1:5000/predict", file := image,
    contentType := "multipart/form-data", timeout := 5000 }

/-- The part of `handleSubmit` that runs once the awaited request has settled, applied to the
state `cur` the component has at that moment: the setters overwrite `result` and
`probability`, the other cells are not touched. -/
def handleSubmitSettle (cur : State) : Outcome → Step
  | .resolved data =>
    { state := { cur with
        result := clasification data.prediction
        probability := toFixed1 (jsMul (jsonNumber data.probability) 100) }
      toasts := [successToast]
      posts := [] }
  | .rejected error => { state := cur, toasts := [errorToast error], posts := [] }

/-- The handler `handleSubmit`, run without any other event in between; `net` tells how the
request it issues settles. -/
def handleSubmit (s : State) (net : Request → Outcome) : Step :=
  match s.image with
  | none => { state := s, toasts := [noImageToast], posts := [] }
  | some image =>
    let r := handleSubmitSettle s (net (predictRequest image))
    { r with posts := [predictRequest image] }

/-! ## Rendering -/

/-- The result block of the rendered tree. -/
structure ResultPanel where
  category : JSVal
  categoryColor : String
  certaintyText : String
  certaintyColor : String
  deriving DecidableEq

/-- The conditional parts of the rendered tree. -/
structure View where
  /-- The file name line, shown under `imagePreview && ...`. -/
  fileName : Option (Option String)
  /-- The source of the preview image, shown under `imagePreview && ...`. -/
  previewSrc : Option String
  /-- Whether the "Check for Cancer" button is present. -/
  submitButton : Bool
  /-- The block shown under `result && ...`. -/
  resultPanel : Option ResultPanel
  deriving DecidableEq

/-- What the component renders in state `s`. -/
def render (s : State) : View :=
  { fileName := if s.imagePreview ≠ "" then some (s.image.map File.name) else none
    previewSrc := if s.imagePreview ≠ "" then some s.imagePreview else none
    submitButton := decide (s.imagePreview ≠ "")
    resultPanel :=
      if s.result.truthy then
        some { category := s.result
               categoryColor := getResultColor s.result
               certaintyText := s.probability ++ "%"
               certaintyColor := getColor (.str s.probability) }
      else none }

/-! ## Runs -/

/-- The component together with the browser it runs in. -/
structure World where
  ui : State
  browser : Browser

/-- The events that drive the component. -/
inductive Event where
  /-- The file input changes; `file` is `e.target.files?.[0]`. -/
  | change (file : Option File)
  /-- The button is clicked and the request it issues settles before any other event. -/
  | submit (net : Request → Outcome)
  /-- A request issued by an earlier click settles. -/
  | settle (outcome : Outcome)

/-- One event. -/
def step (mint : ℕ → String) (w : World) : Event → World
  | .change file =>
    let r := handleImageChange mint w.browser w.ui file
    { ui := r.1, browser := r.2 }
  | .submit net => { w with ui := (handleSubmit w.ui net).state }
  | .settle outcome => { w with ui := (handleSubmitSettle w.ui outcome).state }

/-- A sequence of events. -/
def run (mint : ℕ → String) (w : World) (events : List Event) : World :=
  events.foldl (step mint) w

/-- A freshly mounted component in a browser with an empty object-URL store. -/
def World.initial : World :=
  { ui := State.initial, browser := { allocated := [], minted := 0 } }

/-! ## Sample data -/

/-- A sample object-URL generator: the `k`-th URL is `blob:k`. -/
def blobUrl (k : ℕ) : String := "blob:" ++ toString k

/-- A first sample file. -/
def fileA : File := { name := "a.png", blob := 1 }

/-- A second sample file. -/
def fileB : File := { name := "b.png", blob := 2 }

/-- A sample state: `fileA` is selected and nothing has been analysed yet. -/
def selectedA : State :=
  { image := some fileA, imagePreview := "blob:0", result := .str "", probability := "" }

/-! ## Rounding lemmas -/

theorem roundHalfEven_le {m : ℚ} {M : ℤ} (h : m ≤ M) : roundHalfEven m ≤ M := by
  have hfl : (⌊m⌋ : ℚ) ≤ m := Int.floor_le m
  have h1 : ⌊m⌋ ≤ M := by exact_mod_cast hfl.trans h
  have h2 : 0 < m - ⌊m⌋ → ⌊m⌋ + 1 ≤ M := by
    intro hpos
    have : (⌊m⌋ : ℚ) < M := by linarith
    have : ⌊m⌋ < M := by exact_mod_cast this
    omega
  unfold roundHalfEven
  split_ifs with a b c
  · exact h1
  · exact h2 (by linarith)
  · exact h1
  · exact h2 (by linarith)

theorem le_roundHalfEven {m : ℚ} {M : ℤ} (h : (M : ℚ) ≤ m) : M ≤ roundHalfEven m := by
  have h1 : M ≤ ⌊m⌋ := Int.le_floor.mpr h
  unfold roundHalfEven
  split_ifs <;> omega

theorem roundHalfEven_eq {m : ℚ} {M : ℤ} (h1 : (M : ℚ) - 1 / 2 < m) (h2 : m < M + 1 / 2) :
    roundHalfEven m = M := by
  have hfl : (⌊m⌋ : ℚ) ≤ m := Int.floor_le m
  have hlt : m < ⌊m⌋ + 1 := Int.lt_floor_add_one m
  have ha : ⌊m⌋ < M + 1 := by
    have : (⌊m⌋ : ℚ) < ((M + 1 : ℤ) : ℚ) := by push_cast; linarith
    exact_mod_cast this
  have hb : M - 2 < ⌊m⌋ := by
    have : ((M - 2 : ℤ) : ℚ) < ⌊m⌋ := by push_cast; linarith
    exact_mod_cast this
  have hcases : ⌊m⌋ = M ∨ ⌊m⌋ = M - 1 := by omega
  unfold roundHalfEven
  rcases hcases with hc | hc
  · have hfr : m - ⌊m⌋ < 1 / 2 := by rw [hc]; linarith
    rw [if_pos hfr, hc]
  · have hfr : 1 / 2 < m - ⌊m⌋ := by rw [hc]; push_cast; linarith
    rw [if_neg (not_lt.mpr hfr.le), if_pos hfr, hc]
    ring

theorem abs_roundHalfEven_sub_le (m : ℚ) : |(roundHalfEven m : ℚ) - m| ≤ 1 / 2 := by
  have hfl : (⌊m⌋ : ℚ) ≤ m := Int.floor_le m
  have hlt : m < ⌊m⌋ + 1 := Int.lt_floor_add_one m
  unfold roundHalfEven
  rw [abs_le]
  split_ifs with a b c <;> push_cast <;> constructor <;> linarith

theorem ulpExp_eq {x : ℚ} {e : ℤ} (h1 : (2 : ℚ) ^ e ≤ |x|) (h2 : |x| < (2 : ℚ) ^ (e + 1))
    (h3 : -1022 ≤ e) : ulpExp x = e - 52 := by
  have hpos : 0 < |x| := lt_of_lt_of_le (by positivity) h1
  have ha : e ≤ Int.log 2 |x| := by
    have := (Int.zpow_le_iff_le_log (b := 2) (by norm_num) hpos (x := e)).mp (by exact_mod_cast h1)
    exact this
  have hb : Int.log 2 |x| < e + 1 := by
    have := (Int.lt_zpow_iff_log_lt (b := 2) (by norm_num) hpos (x := e + 1)).mp
      (by exact_mod_cast h2)
    exact this
  unfold ulpExp
  have : Int.log 2 |x| = e := by omega
  rw [this, max_eq_left h3]

theorem roundDouble_eq {x : ℚ} (e M : ℤ) (h1 : (2 : ℚ) ^ e ≤ |x|) (h2 : |x| < (2 : ℚ) ^ (e + 1))
    (h3 : -1022 ≤ e) (h4 : (M : ℚ) - 1 / 2 < x / 2 ^ (e - 52))
    (h5 : x / 2 ^ (e - 52) < M + 1 / 2) : roundDouble x = M * 2 ^ (e - 52) := by
  unfold roundDouble
  rw [ulpExp_eq h1 h2 h3, roundHalfEven_eq h4 h5]

theorem ulpExp_le {x : ℚ} {j : ℤ} (hx : 0 ≤ x) (hb : x < 2 ^ j) (hj : 1 ≤ j) :
    ulpExp x ≤ j - 53 := by
  have hlog : Int.log 2 |x| < j := by
    rcases hx.eq_or_lt with h0 | hpos
    · rw [← h0]; simp; omega
    · rw [abs_of_pos hpos]
      exact (Int.lt_zpow_iff_log_lt (b := 2) (by norm_num) hpos (x := j)).mp (by exact_mod_cast hb)
  unfold ulpExp
  have : max (Int.log 2 |x|) (-1022) < j := max_lt hlog (by omega)
  omega

theorem ulpExp_le_of_lt {x : ℚ} (hx : 0 ≤ x) (hb : x < 2 ^ 49) : ulpExp x ≤ -4 := by
  have := ulpExp_le (j := 49) hx (by exact_mod_cast hb) (by norm_num)
  omega

theorem abs_roundDouble_sub_le {x : ℚ} {j : ℤ} (hx : 0 ≤ x) (hb : x < 2 ^ j) (hj : 1 ≤ j) :
    |roundDouble x - x| ≤ 2 ^ (j - 54) := by
  have hu := ulpExp_le hx hb hj
  have hpos : (0 : ℚ) < 2 ^ ulpExp x := by positivity
  have h1 := abs_roundHalfEven_sub_le (x / 2 ^ ulpExp x)
  have h2 : roundDouble x - x = (roundHalfEven (x / 2 ^ ulpExp x) - x / 2 ^ ulpExp x) * 2 ^ ulpExp x := by
    unfold roundDouble
    field_simp
  have h3 : (2 : ℚ) ^ ulpExp x ≤ 2 ^ (j - 53) := zpow_le_zpow_right₀ (by norm_num) hu
  have h4 : (2 : ℚ) ^ (j - 53) = 2 * 2 ^ (j - 54) := by
    rw [show j - 53 = (j - 54) + 1 by ring, zpow_add_one₀ (by norm_num)]
    ring
  rw [h2, abs_mul, abs_of_pos hpos]
  calc |(roundHalfEven (x / 2 ^ ulpExp x) : ℚ) - x / 2 ^ ulpExp x| * 2 ^ ulpExp x
      ≤ 1 / 2 * 2 ^ ulpExp x := mul_le_mul_of_nonneg_right h1 hpos.le
    _ ≤ 1 / 2 * 2 ^ (j - 53) := by linarith
    _ = 2 ^ (j - 54) := by rw [h4]; ring

theorem exists_int_div_ulp {c : ℚ} {u : ℤ} (hc : ∃ k : ℤ, c * 16 = k) (hu : u ≤ -4) :
    ∃ K : ℤ, c / 2 ^ u = K := by
  obtain ⟨k, hk⟩ := hc
  obtain ⟨t, ht⟩ : ∃ t : ℕ, u = -((4 + t : ℕ) : ℤ) := ⟨(-4 - u).toNat, by omega⟩
  refine ⟨k * 2 ^ t, ?_⟩
  rw [ht, zpow_neg, zpow_natCast, div_inv_eq_mul, pow_add]
  push_cast
  rw [← hk]
  ring

theorem roundDouble_le_of_le {x c : ℚ} (hx : 0 ≤ x) (hxc : x ≤ c) (hc : ∃ k : ℤ, c * 16 = k)
    (hb : x < 2 ^ 49) : roundDouble x ≤ c := by
  obtain ⟨K, hK⟩ := exists_int_div_ulp hc (ulpExp_le_of_lt hx hb)
  have hpos : (0 : ℚ) < 2 ^ ulpExp x := by positivity
  have h1 : x / 2 ^ ulpExp x ≤ K := by
    rw [← hK]; exact div_le_div_of_nonneg_right hxc hpos.le
  have h2 : (roundHalfEven (x / 2 ^ ulpExp x) : ℚ) ≤ K := by exact_mod_cast roundHalfEven_le h1
  have h3 : c = K * 2 ^ ulpExp x := by rw [← hK]; field_simp
  unfold roundDouble
  rw [h3]
  exact mul_le_mul_of_nonneg_right h2 hpos.le

theorem le_roundDouble_of_le {x c : ℚ} (hx : 0 ≤ x) (hcx : c ≤ x) (hc : ∃ k : ℤ, c * 16 = k)
    (hb : x < 2 ^ 49) : c ≤ roundDouble x := by
  obtain ⟨K, hK⟩ := exists_int_div_ulp hc (ulpExp_le_of_lt hx hb)
  have hpos : (0 : ℚ) < 2 ^ ulpExp x := by positivity
  have h1 : (K : ℚ) ≤ x / 2 ^ ulpExp x := by
    rw [← hK]; exact div_le_div_of_nonneg_right hcx hpos.le
  have h2 : (K : ℚ) ≤ roundHalfEven (x / 2 ^ ulpExp x) := by exact_mod_cast le_roundHalfEven h1
  have h3 : c = K * 2 ^ ulpExp x := by rw [← hK]; field_simp
  unfold roundDouble
  rw [h3]
  exact mul_le_mul_of_nonneg_right h2 hpos.le

/-- The product `p * 100` of a parsed probability in `[0, 1]` lies in `[0, 100]`. -/
theorem product_mem_Icc {p : ℚ} (h0 : 0 ≤ p) (h1 : p ≤ 1) :
    0 ≤ jsMul (jsonNumber p) 100 ∧ jsMul (jsonNumber p) 100 ≤ 100 := by
  have hb : p < 2 ^ 49 := lt_of_le_of_lt h1 (by norm_num)
  have a0 : 0 ≤ jsonNumber p := le_roundDouble_of_le h0 h0 ⟨0, by norm_num⟩ hb
  have a1 : jsonNumber p ≤ 1 := roundDouble_le_of_le h0 h1 ⟨16, by norm_num⟩ hb
  have b0 : 0 ≤ jsonNumber p * 100 := by positivity
  have b1 : jsonNumber p * 100 ≤ 100 := by linarith
  have hb2 : jsonNumber p * 100 < 2 ^ 49 := lt_of_le_of_lt b1 (by norm_num)
  exact ⟨le_roundDouble_of_le b0 b0 ⟨0, by norm_num⟩ hb2,
    roundDouble_le_of_le b0 b1 ⟨1600, by norm_num⟩ hb2⟩

/-- The computed product differs from the exact `p * 100` by less than `2 ^ (-45)`. -/
theorem abs_product_sub_le {p : ℚ} (h0 : 0 ≤ p) (h1 : p ≤ 1) :
    |jsMul (jsonNumber p) 100 - p * 100| ≤ 1 / 2 ^ 45 := by
  have hb : p < 2 ^ 49 := lt_of_le_of_lt h1 (by norm_num)
  have a0 : 0 ≤ jsonNumber p := le_roundDouble_of_le h0 h0 ⟨0, by norm_num⟩ hb
  have a1 : jsonNumber p ≤ 1 := roundDouble_le_of_le h0 h1 ⟨16, by norm_num⟩ hb
  have e1 : |jsonNumber p - p| ≤ 2 ^ ((1 : ℤ) - 54) :=
    abs_roundDouble_sub_le h0 (lt_of_le_of_lt h1 (by norm_num)) le_rfl
  have e2 : |jsMul (jsonNumber p) 100 - jsonNumber p * 100| ≤ 2 ^ ((7 : ℤ) - 54) :=
    abs_roundDouble_sub_le (by positivity)
      (lt_of_le_of_lt (by linarith : jsonNumber p * 100 ≤ 100) (by norm_num)) (by norm_num)
  norm_num at e1 e2
  rw [abs_le] at e1 e2 ⊢
  constructor <;> norm_num <;> linarith [e1.1, e1.2, e2.1, e2.2]

/-! ## Text lemmas -/

theorem digitValue_digitChar {d : ℕ} (h : d < 10) : digitValue (Nat.digitChar d) = some d := by
  interval_cases d <;> rfl

theorem digitChar_ne {d : ℕ} (h : d < 10) :
    Nat.digitChar d ≠ '.' ∧ Nat.digitChar d ≠ '-' ∧ Nat.digitChar d ≠ '+' := by
  interval_cases d <;> decide

theorem readDigits_append (acc : ℕ) (l : List Char) (c : Char) :
    readDigits acc (l ++ [c]) =
      (readDigits acc l).bind (fun v => (digitValue c).map (fun d => v * 10 + d)) := by
  induction l generalizing acc with
  | nil =>
    cases h : digitValue c <;> simp [readDigits, h]
  | cons a l ih =>
    cases h : digitValue a <;> simp [readDigits, h, ih]

theorem readDigits_digitsAux (fuel n : ℕ) (h : n ≤ fuel) :
    readDigits 0 (digitsAux fuel n) = some n := by
  induction fuel generalizing n with
  | zero =>
    have : n = 0 := by omega
    subst this
    rfl
  | succ fuel ih =>
    unfold digitsAux
    split_ifs with hlt
    · simp [readDigits, digitValue_digitChar hlt]
    · rw [readDigits_append, ih (n / 10) (by omega), digitValue_digitChar (Nat.mod_lt n (by norm_num))]
      simp only [Option.some_bind, Option.map_some']
      congr 1
      omega

theorem digitsAux_ne (fuel n : ℕ) :
    ∀ c ∈ digitsAux fuel n, c ≠ '.' ∧ c ≠ '-' ∧ c ≠ '+' := by
  induction fuel generalizing n with
  | zero =>
    intro c hc
    simp only [digitsAux, List.mem_singleton] at hc
    subst hc
    exact digitChar_ne (Nat.mod_lt n (by norm_num))
  | succ fuel ih =>
    intro c hc
    unfold digitsAux at hc
    split_ifs at hc with hlt
    · simp only [List.mem_singleton] at hc
      subst hc
      exact digitChar_ne hlt
    · rw [List.mem_append] at hc
      rcases hc with hc | hc
      · exact ih (n / 10) c hc
      · simp only [List.mem_singleton] at hc
        subst hc
        exact digitChar_ne (Nat.mod_lt n (by norm_num))

theorem digitsAux_ne_nil (fuel n : ℕ) : digitsAux fuel n ≠ [] := by
  cases fuel with
  | zero => simp [digitsAux]
  | succ fuel =>
    unfold digitsAux
    split_ifs <;> simp

theorem parseUnsigned_point (ds : List Char) (dc : Char) (k d : ℕ)
    (hds : ∀ c ∈ ds, c ≠ '.') (hk : readDigits 0 ds = some k) (hd : digitValue dc = some d) :
    parseUnsigned (ds ++ ['.', dc]) = some ((k : ℚ) + (d : ℚ) / 10) := by
  have ht : (ds ++ ['.', dc]).takeWhile (fun c => c != '.') = ds := by
    rw [List.takeWhile_append_of_pos (by simpa using hds)]
    simp
  have hd2 : (ds ++ ['.', dc]).dropWhile (fun c => c != '.') = ['.', dc] := by
    rw [List.dropWhile_append_of_pos (by simpa using hds)]
    simp
  unfold parseUnsigned
  rw [ht, hd2]
  simp [hk, readDigits, hd]

theorem parseDecimal_digits (ds tl : List Char) (hne : ds ≠ [])
    (hds : ∀ c ∈ ds, c ≠ '.' ∧ c ≠ '-' ∧ c ≠ '+') :
    parseDecimal (ds ++ tl) = parseUnsigned (ds ++ tl) := by
  obtain ⟨c, rest, hcr⟩ := List.exists_cons_of_ne_nil hne
  have hc := hds c (by rw [hcr]; simp)
  subst hcr
  unfold parseDecimal
  split
  · rename_i heq; simp at heq; exact absurd heq.1 hc.2.1
  · rename_i heq; simp at heq; exact absurd heq.1 hc.2.2
  · rfl

theorem parseDecimal_fixedText (n : ℕ) :
    parseDecimal (fixedText n).data = some ((n : ℚ) / 10) := by
  have hne := digitsAux_ne (n / 10) (n / 10)
  have hd := digitValue_digitChar (Nat.mod_lt n (by norm_num : 10 > 0))
  show parseDecimal (digitsAux (n / 10) (n / 10) ++ ['.', Nat.digitChar (n % 10)]) = _
  rw [parseDecimal_digits _ _ (digitsAux_ne_nil _ _) hne,
    parseUnsigned_point _ _ (n / 10) (n % 10) (fun c hc => (hne c hc).1)
      (readDigits_digitsAux _ _ le_rfl) hd]
  congr 1
  have : (n : ℚ) = ((10 * (n / 10) + n % 10 : ℕ) : ℚ) := by rw [Nat.div_add_mod]
  rw [this]
  push_cast
  ring

theorem fixedText_ne_empty (n : ℕ) : fixedText n ≠ "" := by
  intro h
  have := congrArg String.data h
  simp [fixedText] at this

theorem stringToNumber_fixedText (n : ℕ) :
    stringToNumber (fixedText n) = some (roundDouble ((n : ℚ) / 10)) := by
  unfold stringToNumber
  rw [if_neg (fixedText_ne_empty n), parseDecimal_fixedText]
  rfl

/-! ## Certainty text -/

theorem tenths_eq {x : ℚ} {n : ℕ} (h0 : 0 ≤ x) (h1 : (n : ℚ) ≤ x * 10 + 1 / 2)
    (h2 : x * 10 + 1 / 2 < n + 1) : tenths x = n := by
  unfold tenths
  rw [abs_of_nonneg h0]
  have : ⌊x * 10 + 1 / 2⌋ = (n : ℤ) := by
    rw [Int.floor_eq_iff]
    push_cast
    exact ⟨h1, h2⟩
  rw [this]
  simp

theorem tenths_spec {x : ℚ} (h0 : 0 ≤ x) :
    ((tenths x : ℕ) : ℚ) ≤ x * 10 + 1 / 2 ∧ x * 10 + 1 / 2 < (tenths x : ℕ) + 1 := by
  have hnn : 0 ≤ ⌊x * 10 + 1 / 2⌋ := Int.floor_nonneg.mpr (by positivity)
  have hcast : ((tenths x : ℕ) : ℚ) = (⌊x * 10 + 1 / 2⌋ : ℚ) := by
    unfold tenths
    rw [abs_of_nonneg h0]
    have : ((⌊x * 10 + 1 / 2⌋.toNat : ℕ) : ℤ) = ⌊x * 10 + 1 / 2⌋ := Int.toNat_of_nonneg hnn
    exact_mod_cast this
  rw [hcast]
  exact ⟨Int.floor_le _, Int.lt_floor_add_one _⟩

theorem tenths_le {x : ℚ} (h0 : 0 ≤ x) (h1 : x ≤ 100) : tenths x ≤ 1000 := by
  have h := (tenths_spec h0).1
  have : ((tenths x : ℕ) : ℚ) < 1001 := by linarith
  have : tenths x < 1001 := by exact_mod_cast this
  omega

theorem abs_tenths_sub_le {x : ℚ} (h0 : 0 ≤ x) : |((tenths x : ℕ) : ℚ) / 10 - x| ≤ 1 / 20 := by
  obtain ⟨h1, h2⟩ := tenths_spec h0
  rw [abs_le]
  constructor <;> linarith

theorem toFixed1_of_nonneg {x : ℚ} (h0 : 0 ≤ x) : toFixed1 x = fixedText (tenths x) := by
  unfold toFixed1
  rw [if_neg (not_lt.mpr h0)]

theorem toFixed1_ne_empty (x : ℚ) : toFixed1 x ≠ "" := by
  unfold toFixed1
  split_ifs
  · intro h
    have := congrArg String.data h
    simp at this
  · exact fixedText_ne_empty _

/-- The comparison of a certainty text with a whole threshold, in terms of its tenths. -/
theorem jsGt_fixedText {n : ℕ} (hn : n ≤ 1000) (t : ℕ) (ht : t ≤ 100) :
    jsGt (.str (fixedText n)) (t : ℚ) = decide (10 * t < n) := by
  have hx0 : (0 : ℚ) ≤ (n : ℚ) / 10 := by positivity
  have hnq : (n : ℚ) ≤ 1000 := by exact_mod_cast hn
  have htq : (t : ℚ) ≤ 100 := by exact_mod_cast ht
  have hb : (n : ℚ) / 10 < 2 ^ 49 := by
    have : (n : ℚ) / 10 ≤ 100 := by linarith
    exact lt_of_le_of_lt this (by norm_num)
  unfold jsGt
  simp only [JSVal.toNumber, stringToNumber_fixedText]
  by_cases h : 10 * t < n
  · have hq : ((10 * t + 1 : ℕ) : ℚ) ≤ n := by exact_mod_cast h
    push_cast at hq
    have hc : (t : ℚ) + 1 / 16 ≤ (n : ℚ) / 10 := by linarith
    have := le_roundDouble_of_le hx0 hc ⟨16 * t + 1, by push_cast; ring⟩ hb
    have hlt : (t : ℚ) < roundDouble ((n : ℚ) / 10) := by linarith
    simp [h, hlt]
  · have hq : (n : ℚ) ≤ ((10 * t : ℕ) : ℚ) := by exact_mod_cast not_lt.mp h
    push_cast at hq
    have hc : (n : ℚ) / 10 ≤ t := by linarith
    have := roundDouble_le_of_le hx0 hc ⟨16 * t, by push_cast; ring⟩ hb
    simp [h, not_lt.mpr this]

theorem getColor_fixedText {n : ℕ} (hn : n ≤ 1000) :
    getColor (.str (fixedText n)) =
      if 750 < n then "green.400" else if 500 < n then "orange.400" else "red.400" := by
  have h75 := jsGt_fixedText hn 75 (by norm_num)
  have h50 := jsGt_fixedText hn 50 (by norm_num)
  norm_num at h75 h50
  unfold getColor
  rw [h75, h50]
  simp

theorem getColor_num (c : ℚ) :
    getColor (.num c) =
      if 75 < c then "green.400" else if 50 < c then "orange.400" else "red.400" := by
  simp [getColor, jsGt, JSVal.toNumber]

/-- A text that is not a number converts to `NaN`, fails both comparisons and takes the last
branch. -/
theorem getColor_nan : getColor (.str "NaN") = "red.400" ∧ getColor .undefined = "red.400" := by
  have h : stringToNumber "NaN" = none := by
    simp [stringToNumber, parseDecimal, parseUnsigned, readDigits, digitValue]
  constructor
  · simp [getColor, jsGt, JSVal.toNumber, h]
  · simp [getColor, jsGt, JSVal.toNumber]

/-! ## The sample responses -/

theorem product_sample_93 : jsMul (jsonNumber (93 / 100)) 100 = 93 := by
  have h1 : jsonNumber (93 / 100) = 8376695306909123 / 9007199254740992 := by
    unfold jsonNumber
    rw [roundDouble_eq (-1) 8376695306909123] <;> norm_num [abs_of_pos]
  unfold jsMul
  rw [h1, roundDouble_eq 6 6544293208522752] <;> norm_num [abs_of_pos]

theorem product_sample_751 :
    jsMul (jsonNumber (751 / 1000)) 100 = 2642346343871283 / 35184372088832 := by
  have h1 : jsonNumber (751 / 1000) = 6764406640310485 / 9007199254740992 := by
    unfold jsonNumber
    rw [roundDouble_eq (-1) 6764406640310485] <;> norm_num [abs_of_pos]
  unfold jsMul
  rw [h1, roundDouble_eq 6 5284692687742566] <;> norm_num [abs_of_pos]

theorem product_sample_75 : jsMul (jsonNumber (75 / 100)) 100 = 75 := by
  have h1 : jsonNumber (75 / 100) = 3 / 4 := by
    unfold jsonNumber
    rw [roundDouble_eq (-1) 6755399441055744] <;> norm_num [abs_of_pos]
  unfold jsMul
  rw [h1, roundDouble_eq 6 5277655813324800] <;> norm_num [abs_of_pos]

theorem toFixed1_sample_93 : toFixed1 (jsMul (jsonNumber (93 / 100)) 100) = "93.0" := by
  rw [product_sample_93, toFixed1_of_nonneg (by norm_num),
    tenths_eq (n := 930) (by norm_num) (by norm_num) (by norm_num)]
  rfl

theorem toFixed1_sample_751 : toFixed1 (jsMul (jsonNumber (751 / 1000)) 100) = "75.1" := by
  rw [product_sample_751, toFixed1_of_nonneg (by norm_num),
    tenths_eq (n := 751) (by norm_num) (by norm_num) (by norm_num)]
  rfl

theorem toFixed1_sample_75 : toFixed1 (jsMul (jsonNumber (75 / 100)) 100) = "75.0" := by
  rw [product_sample_75, toFixed1_of_nonneg (by norm_num),
    tenths_eq (n := 750) (by norm_num) (by norm_num) (by norm_num)]
  rfl

/-! ## Handler lemmas -/

theorem handleSubmit_of_image {s : State} {image : File} (net : Request → Outcome)
    (hs : s.image = some image) :
    handleSubmit s net =
      { handleSubmitSettle s (net (predictRequest image)) with posts := [predictRequest image] } := by
  unfold handleSubmit
  rw [hs]

theorem handleSubmitSettle_image (s : State) (o : Outcome) :
    (handleSubmitSettle s o).state.image = s.image ∧
      (handleSubmitSettle s o).state.imagePreview = s.imagePreview := by
  cases o <;> exact ⟨rfl, rfl⟩

theorem handleSubmit_image (s : State) (net : Request → Outcome) :
    (handleSubmit s net).state.image = s.image ∧
      (handleSubmit s net).state.imagePreview = s.imagePreview := by
  cases h : s.image with
  | none =>
    have : handleSubmit s net = { state := s, toasts := [noImageToast], posts := [] } := by
      unfold handleSubmit
      rw [h]
    rw [this]
    exact ⟨h, rfl⟩
  | some image =>
    rw [handleSubmit_of_image net h, ← h]
    exact handleSubmitSettle_image s (net (predictRequest image))

theorem blobUrl_ne_empty (k : ℕ) : blobUrl k ≠ "" := by
  intro h
  have := congrArg String.length h
  simp only [blobUrl, String.length_append] at this
  have h5 : "blob:".length = 5 := by decide
  rw [h5] at this
  have h0 : "".length = 0 := by decide
  omega

theorem getColor_sample_93 : getColor (.str "93.0") = "green.400" :=
  getColor_fixedText (n := 930) (by norm_num)

/-! ## The presentation mappers -/

/-- C1. `getColor` returns "green.400" exactly for a certainty above 75, "orange.400" exactly
for one above 50 and at most 75, and "red.400" exactly for one of at most 50, so 75 is orange and
50 is red.  For a probability `p` in `[0, 1]` the certainty text is that of a number `n` of
tenths, `n ≤ 1000`, nearest to the product `p * 100`, and its colour follows the same bands;
the probability 0.751 gives "75.1" and green, 0.75 gives "75.0" and orange. -/
theorem getColor_bands :
    (∀ c : ℚ,
      (getColor (.num c) = "green.400" ↔ 75 < c) ∧
      (getColor (.num c) = "orange.400" ↔ 50 < c ∧ c ≤ 75) ∧
      (getColor (.num c) = "red.400" ↔ c ≤ 50)) ∧
    getColor (.num 75) = "orange.400" ∧ getColor (.num 50) = "red.400" ∧
    (∀ p : ℚ, 0 ≤ p → p ≤ 1 →
      ∃ n : ℕ, n ≤ 1000 ∧ toFixed1 (jsMul (jsonNumber p) 100) = fixedText n ∧
        |(n : ℚ) / 10 - jsMul (jsonNumber p) 100| ≤ 1 / 20 ∧
        (getColor (.str (fixedText n)) = "green.400" ↔ 750 < n) ∧
        (getColor (.str (fixedText n)) = "orange.400" ↔ 500 < n ∧ n ≤ 750) ∧
        (getColor (.str (fixedText n)) = "red.400" ↔ n ≤ 500)) ∧
    toFixed1 (jsMul (jsonNumber (751 / 1000)) 100) = "75.1" ∧
    getColor (.str "75.1") = "green.400" ∧
    toFixed1 (jsMul (jsonNumber (75 / 100)) 100) = "75.0" ∧
    getColor (.str "75.0") = "orange.400" := by
  have hnum : ∀ c : ℚ,
      (getColor (.num c) = "green.400" ↔ 75 < c) ∧
      (getColor (.num c) = "orange.400" ↔ 50 < c ∧ c ≤ 75) ∧
      (getColor (.num c) = "red.400" ↔ c ≤ 50) := by
    intro c
    rw [getColor_num]
    by_cases h75 : 75 < c
    · have h50 : 50 < c := by linarith
      simp [h75, h50, not_le.mpr h75, not_le.mpr h50]
    · by_cases h50 : 50 < c
      · simp [h75, h50, not_lt.mp h75, not_le.mpr h50]
      · simp [h75, h50, not_lt.mp h50]
  have htxt : ∀ n : ℕ, n ≤ 1000 →
      (getColor (.str (fixedText n)) = "green.400" ↔ 750 < n) ∧
      (getColor (.str (fixedText n)) = "orange.400" ↔ 500 < n ∧ n ≤ 750) ∧
      (getColor (.str (fixedText n)) = "red.400" ↔ n ≤ 500) := by
    intro n hn
    rw [getColor_fixedText hn]
    by_cases h75 : 750 < n
    · have h50 : 500 < n := by omega
      simp [h75, h50, not_le.mpr h75, not_le.mpr h50]
    · by_cases h50 : 500 < n
      · simp [h75, h50, not_lt.mp h75, not_le.mpr h50]
      · simp [h75, h50, not_lt.mp h50]
  refine ⟨hnum, ((hnum 75).2.1).mpr (by norm_num), ((hnum 50).2.2).mpr le_rfl, ?_,
    toFixed1_sample_751, ((htxt 751 (by norm_num)).1).mpr (by norm_num),
    toFixed1_sample_75, ((htxt 750 (by norm_num)).2.1).mpr (by norm_num)⟩
  intro p h0 h1
  obtain ⟨a0, a1⟩ := product_mem_Icc h0 h1
  exact ⟨tenths (jsMul (jsonNumber p) 100), tenths_le a0 a1, toFixed1_of_nonneg a0,
    abs_tenths_sub_le a0, htxt _ (tenths_le a0 a1)⟩

/-- Witness of C1: the probability 0.93 lies in `[0, 1]` and its certainty text is banded. -/
theorem getColor_bands_witness :
    (0 : ℚ) ≤ 93 / 100 ∧ (93 / 100 : ℚ) ≤ 1 ∧
    ∃ n : ℕ, n ≤ 1000 ∧ toFixed1 (jsMul (jsonNumber (93 / 100)) 100) = fixedText n ∧
      |(n : ℚ) / 10 - jsMul (jsonNumber (93 / 100)) 100| ≤ 1 / 20 ∧
      (getColor (.str (fixedText n)) = "green.400" ↔ 750 < n) ∧
      (getColor (.str (fixedText n)) = "orange.400" ↔ 500 < n ∧ n ≤ 750) ∧
      (getColor (.str (fixedText n)) = "red.400" ↔ n ≤ 500) :=
  ⟨by norm_num, by norm_num, getColor_bands.2.2.2.1 (93 / 100) (by norm_num) (by norm_num)⟩

/-- C2. `getResultColor` is total: "Normal" gives "blue.500", "Benign" gives "green.500",
"Malign" gives "red.600", and every other value, `undefined` and the empty string included,
gives "gray.400"; the result is always one of these four tokens. -/
theorem getResultColor_total :
    getResultColor (.str "Normal") = "blue.500" ∧
    getResultColor (.str "Benign") = "green.500" ∧
    getResultColor (.str "Malign") = "red.600" ∧
    (∀ v : JSVal, v ≠ .str "Normal" → v ≠ .str "Benign" → v ≠ .str "Malign" →
      getResultColor v = "gray.400") ∧
    getResultColor .undefined = "gray.400" ∧
    getResultColor (.str "") = "gray.400" ∧
    (∀ v : JSVal, getResultColor v ∈ ["blue.500", "green.500", "red.600", "gray.400"]) := by
  refine ⟨by decide, by decide, by decide, ?_, by decide, by decide, ?_⟩
  · intro v h1 h2 h3
    simp [getResultColor, h1, h2, h3]
  · intro v
    unfold getResultColor
    split_ifs <;> simp

/-- Witness of C2: `null` is none of the three categories and is coloured "gray.400". -/
theorem getResultColor_total_witness :
    JSVal.null ≠ .str "Normal" ∧ JSVal.null ≠ .str "Benign" ∧ JSVal.null ≠ .str "Malign" ∧
      getResultColor .null = "gray.400" :=
  ⟨by decide, by decide, by decide,
    getResultColor_total.2.2.2.1 .null (by decide) (by decide) (by decide)⟩

/-! ## Submission -/

/-- C3. With no image selected, `handleSubmit` issues no request, raises exactly one toast,
which has status error and title "No image uploaded", and leaves the four state cells as they
were. -/
theorem handleSubmit_no_image (s : State) (net : Request → Outcome) (h : s.image = none) :
    (handleSubmit s net).posts = [] ∧
    (∃ t : Toast, (handleSubmit s net).toasts = [t] ∧ t.status = .error ∧
      t.title = "No image uploaded") ∧
    (handleSubmit s net).state = s := by
  have : handleSubmit s net = { state := s, toasts := [noImageToast], posts := [] } := by
    unfold handleSubmit
    rw [h]
  rw [this]
  exact ⟨rfl, ⟨noImageToast, rfl, rfl, rfl⟩, rfl⟩

/-- Witness of C3: the freshly mounted component has no image. -/
theorem handleSubmit_no_image_witness :
    State.initial.image = none ∧
    (handleSubmit State.initial (fun _ => .resolved ⟨0, 0⟩)).posts = [] ∧
    (∃ t : Toast, (handleSubmit State.initial (fun _ => .resolved ⟨0, 0⟩)).toasts = [t] ∧
      t.status = .error ∧ t.title = "No image uploaded") ∧
    (handleSubmit State.initial (fun _ => .resolved ⟨0, 0⟩)).state = State.initial :=
  ⟨rfl, handleSubmit_no_image State.initial (fun _ => .resolved ⟨0, 0⟩) rfl⟩

/-- C4. With an image selected and a fulfilled response carrying a prediction `k` in
`{0, 1, 2}` and a probability `p` in `[0, 1]`, `handleSubmit` stores the table entry of `k` as
the category, stores as certainty the text of `n` tenths with one fractional digit, where
`n ≤ 1000` and `n / 10` is the tenth nearest to the computed product `p * 100` (itself within
`2 ^ (-45)` of the exact product), and raises exactly one toast, of status success.  For the
prediction 2 with probability 0.93 the category is "Malign", the certainty is "93.0", and the
result block shows the colours "red.600" and "green.400". -/
theorem handleSubmit_success (s : State) (image : File) (net : Request → Outcome)
    (k : ℤ) (p : ℚ) (hs : s.image = some image)
    (hnet : net (predictRequest image) = .resolved ⟨k, p⟩)
    (hk : k = 0 ∨ k = 1 ∨ k = 2) (hp0 : 0 ≤ p) (hp1 : p ≤ 1) :
    (handleSubmit s net).state.result =
      (if k = 0 then .str "Normal" else if k = 1 then .str "Benign" else .str "Malign") ∧
    (handleSubmit s net).state.probability = toFixed1 (jsMul (jsonNumber p) 100) ∧
    (∃ n : ℕ, n ≤ 1000 ∧ (handleSubmit s net).state.probability = fixedText n ∧
      |(n : ℚ) / 10 - jsMul (jsonNumber p) 100| ≤ 1 / 20 ∧
      |jsMul (jsonNumber p) 100 - p * 100| ≤ 1 / 2 ^ 45) ∧
    (∃ t : Toast, (handleSubmit s net).toasts = [t] ∧ t.status = .success) ∧
    (k = 2 → p = 93 / 100 →
      (handleSubmit s net).state.result = .str "Malign" ∧
      (handleSubmit s net).state.probability = "93.0" ∧
      (render (handleSubmit s net).state).resultPanel =
        some { category := .str "Malign", categoryColor := "red.600",
               certaintyText := "93.0%", certaintyColor := "green.400" }) := by
  rw [handleSubmit_of_image net hs, hnet]
  obtain ⟨a0, a1⟩ := product_mem_Icc hp0 hp1
  refine ⟨?_, rfl, ⟨tenths (jsMul (jsonNumber p) 100), tenths_le a0 a1, toFixed1_of_nonneg a0,
    abs_tenths_sub_le a0, abs_product_sub_le hp0 hp1⟩, ⟨successToast, rfl, rfl⟩, ?_⟩
  · show clasification k = _
    unfold clasification
    rcases hk with h | h | h <;> subst h <;> rfl
  · intro h2 h93
    subst h2 h93
    have hc : clasification 2 = .str "Malign" := rfl
    simp only [handleSubmitSettle, render, hc, toFixed1_sample_93, getColor_sample_93]
    refine ⟨trivial, trivial, ?_⟩
    decide

/-- Witness of C4: `fileA` is selected and the response is `{prediction: 2, probability: 0.93}`. -/
theorem handleSubmit_success_witness :
    selectedA.image = some fileA ∧ (0 : ℚ) ≤ 93 / 100 ∧ (93 / 100 : ℚ) ≤ 1 ∧
    (handleSubmit selectedA (fun _ => .resolved ⟨2, 93 / 100⟩)).state.result = .str "Malign" ∧
    (handleSubmit selectedA (fun _ => .resolved ⟨2, 93 / 100⟩)).state.probability = "93.0" ∧
    (render (handleSubmit selectedA (fun _ => .resolved ⟨2, 93 / 100⟩)).state).resultPanel =
      some { category := .str "Malign", categoryColor := "red.600",
             certaintyText := "93.0%", certaintyColor := "green.400" } :=
  ⟨rfl, by norm_num, by norm_num,
    (handleSubmit_success selectedA fileA (fun _ => .resolved ⟨2, 93 / 100⟩) 2 (93 / 100) rfl rfl
      (by decide) (by norm_num) (by norm_num)).2.2.2.2 rfl rfl⟩

/-- C5. With an image selected and a rejected request (network error, timeout or a status
outside 2xx), `handleSubmit` leaves the state, and so the image and its preview, as it was,
still has posted the one request, and raises exactly one toast, of status error and title
"Error uploading image".  Its description is read from the error: it is the `message` of the
error response's body whenever that body carries one (a truthy value, such as a non-empty
string), and the error's own message when there is no response (network error, timeout), when
the response has no body, or when the body's `message` is absent or empty. -/
theorem handleSubmit_failure (s : State) (image : File) (net : Request → Outcome)
    (error : AxiosError) (hs : s.image = some image)
    (hnet : net (predictRequest image) = .rejected error) :
    (handleSubmit s net).state = s ∧
    (handleSubmit s net).state.image = some image ∧
    (handleSubmit s net).state.imagePreview = s.imagePreview ∧
    (handleSubmit s net).posts = [predictRequest image] ∧
    ∃ t : Toast, (handleSubmit s net).toasts = [t] ∧ t.status = .error ∧
      t.title = "Error uploading image" ∧
      (error.response = none → t.description = .str error.message) ∧
      (∀ st : ℕ, error.response = some ⟨st, none⟩ → t.description = .str error.message) ∧
      (∀ (st : ℕ) (v : JSVal), error.response = some ⟨st, some v⟩ →
        t.description = if v.truthy then v else .str error.message) ∧
      (∀ (st : ℕ) (m : String), error.response = some ⟨st, some (.str m)⟩ → m ≠ "" →
        t.description = .str m) ∧
      (∀ st : ℕ, error.response = some ⟨st, some .undefined⟩ →
        t.description = .str error.message) ∧
      (∀ st : ℕ, error.response = some ⟨st, some (.str "")⟩ →
        t.description = .str error.message) := by
  rw [handleSubmit_of_image net hs, hnet]
  refine ⟨rfl, hs, rfl, rfl, errorToast error, rfl, rfl, rfl, ?_, ?_, ?_, ?_, ?_, ?_⟩
  · intro hr
    simp [errorToast, serverMessage, hr, JSVal.or, JSVal.truthy]
  · intro st hr
    simp [errorToast, serverMessage, hr, JSVal.or, JSVal.truthy]
  · intro st v hr
    simp [errorToast, serverMessage, hr, JSVal.or]
  · intro st m hr hne
    simp [errorToast, serverMessage, hr, JSVal.or, JSVal.truthy, hne]
  · intro st hr
    simp [errorToast, serverMessage, hr, JSVal.or, JSVal.truthy]
  · intro st hr
    simp [errorToast, serverMessage, hr, JSVal.or, JSVal.truthy]

/-- Witness of C5: while `fileA` is selected the server answers 500 with the body
`{message: "model crashed"}`; the state stays and the one toast shows the server's message. -/
theorem handleSubmit_failure_witness :
    selectedA.image = some fileA ∧
    (handleSubmit selectedA (fun _ => .rejected
      ⟨"Request failed with status code 500", some ⟨500, some (.str "model crashed")⟩⟩)).state
      = selectedA ∧
    ∃ t : Toast,
      (handleSubmit selectedA (fun _ => .rejected
        ⟨"Request failed with status code 500",
          some ⟨500, some (.str "model crashed")⟩⟩)).toasts = [t] ∧
      t.status = .error ∧ t.description = .str "model crashed" := by
  obtain ⟨h1, -, -, -, t, ht, hst, -, -, -, -, hm, -, -⟩ :=
    handleSubmit_failure selectedA fileA
      (fun _ => .rejected
        ⟨"Request failed with status code 500", some ⟨500, some (.str "model crashed")⟩⟩)
      ⟨"Request failed with status code 500", some ⟨500, some (.str "model crashed")⟩⟩ rfl rfl
  exact ⟨rfl, h1, t, ht, hst, hm 500 "model crashed" rfl (by decide)⟩

/-! ## Selection -/

/-- C6, as the code has it. Selecting a file stores the file and a newly created preview URL
and leaves `result` and `probability` as they were, so the result block rendered before the
selection is rendered unchanged after it. -/
theorem handleImageChange_keeps_result (mint : ℕ → String) (b : Browser) (s : State)
    (file : File) :
    (handleImageChange mint b s (some file)).1.image = some file ∧
    (handleImageChange mint b s (some file)).1.imagePreview = mint b.minted ∧
    (handleImageChange mint b s (some file)).1.result = s.result ∧
    (handleImageChange mint b s (some file)).1.probability = s.probability ∧
    (render (handleImageChange mint b s (some file)).1).resultPanel = (render s).resultPanel :=
  ⟨rfl, rfl, rfl, rfl, rfl⟩

/-- C6 fails as stated: after `fileA` has been analysed as "Malign" with certainty "93.0",
selecting `fileB` leaves that category and certainty in the state and the result block on
screen. -/
theorem selection_keeps_old_result :
    (run blobUrl World.initial
      [.change (some fileA), .submit (fun _ => .resolved ⟨2, 93 / 100⟩),
       .change (some fileB)]).ui.image = some fileB ∧
    (run blobUrl World.initial
      [.change (some fileA), .submit (fun _ => .resolved ⟨2, 93 / 100⟩),
       .change (some fileB)]).ui.result = .str "Malign" ∧
    (run blobUrl World.initial
      [.change (some fileA), .submit (fun _ => .resolved ⟨2, 93 / 100⟩),
       .change (some fileB)]).ui.probability = "93.0" ∧
    (render (run blobUrl World.initial
      [.change (some fileA), .submit (fun _ => .resolved ⟨2, 93 / 100⟩),
       .change (some fileB)]).ui).resultPanel =
      some { category := .str "Malign", categoryColor := "red.600",
             certaintyText := "93.0%", certaintyColor := "green.400" } := by
  have hc : clasification 2 = .str "Malign" := rfl
  simp only [run, List.foldl, step, handleImageChange, createObjectURL, World.initial,
    State.initial, handleSubmit, handleSubmitSettle, render, hc, toFixed1_sample_93,
    getColor_sample_93]
  refine ⟨trivial, trivial, trivial, ?_⟩
  decide

/-- C7, as the code has it. With an image selected and a fulfilled response whose prediction
is an integer other than 0, 1 and 2 and whose probability `p` lies in `[0, 1]`, `handleSubmit`
completes: it posts the one request, the category becomes `undefined`, so no result block is
rendered, and the image and its preview stay; but the certainty is not left blank, it is set
as for a known prediction to the text of `n` tenths with one fractional digit, where
`n ≤ 1000` and `n / 10` is the tenth nearest to the computed product `p * 100` (itself within
`2 ^ (-45)` of the exact product), and the one toast raised has status success. -/
theorem handleSubmit_unknown_prediction (s : State) (image : File) (net : Request → Outcome)
    (k : ℤ) (p : ℚ) (hs : s.image = some image)
    (hnet : net (predictRequest image) = .resolved ⟨k, p⟩)
    (h0 : k ≠ 0) (h1 : k ≠ 1) (h2 : k ≠ 2) (hp0 : 0 ≤ p) (hp1 : p ≤ 1) :
    (handleSubmit s net).posts = [predictRequest image] ∧
    (handleSubmit s net).state.result = .undefined ∧
    (render (handleSubmit s net).state).resultPanel = none ∧
    (handleSubmit s net).state.image = some image ∧
    (handleSubmit s net).state.imagePreview = s.imagePreview ∧
    (handleSubmit s net).state.probability = toFixed1 (jsMul (jsonNumber p) 100) ∧
    (∃ n : ℕ, n ≤ 1000 ∧ (handleSubmit s net).state.probability = fixedText n ∧
      |(n : ℚ) / 10 - jsMul (jsonNumber p) 100| ≤ 1 / 20 ∧
      |jsMul (jsonNumber p) 100 - p * 100| ≤ 1 / 2 ^ 45) ∧
    (handleSubmit s net).state.probability ≠ "" ∧
    ∃ t : Toast, (handleSubmit s net).toasts = [t] ∧ t.status = .success := by
  rw [handleSubmit_of_image net hs, hnet]
  have hc : clasification k = .undefined := by simp [clasification, h0, h1, h2]
  obtain ⟨a0, a1⟩ := product_mem_Icc hp0 hp1
  refine ⟨rfl, hc, ?_, hs, rfl, rfl,
    ⟨tenths (jsMul (jsonNumber p) 100), tenths_le a0 a1, toFixed1_of_nonneg a0,
      abs_tenths_sub_le a0, abs_product_sub_le hp0 hp1⟩,
    toFixed1_ne_empty _, successToast, rfl, rfl⟩
  simp [handleSubmitSettle, render, hc, JSVal.truthy]

/-- Witness of C7 as amended: `fileA` is selected and the response carries the prediction 3
with the probability 0.93. -/
theorem handleSubmit_unknown_prediction_witness :
    selectedA.image = some fileA ∧ (3 : ℤ) ≠ 0 ∧ (3 : ℤ) ≠ 1 ∧ (3 : ℤ) ≠ 2 ∧
    (0 : ℚ) ≤ 93 / 100 ∧ (93 / 100 : ℚ) ≤ 1 ∧
    (handleSubmit selectedA (fun _ => .resolved ⟨3, 93 / 100⟩)).state.result = .undefined ∧
    (render (handleSubmit selectedA (fun _ => .resolved ⟨3, 93 / 100⟩)).state).resultPanel
      = none ∧
    (handleSubmit selectedA (fun _ => .resolved ⟨3, 93 / 100⟩)).state.probability ≠ "" :=
  ⟨rfl, by decide, by decide, by decide, by norm_num, by norm_num,
    (handleSubmit_unknown_prediction selectedA fileA (fun _ => .resolved ⟨3, 93 / 100⟩) 3
      (93 / 100) rfl rfl (by decide) (by decide) (by decide) (by norm_num) (by norm_num)).2.1,
    (handleSubmit_unknown_prediction selectedA fileA (fun _ => .resolved ⟨3, 93 / 100⟩) 3
      (93 / 100) rfl rfl (by decide) (by decide) (by decide) (by norm_num) (by norm_num)).2.2.1,
    (handleSubmit_unknown_prediction selectedA fileA (fun _ => .resolved ⟨3, 93 / 100⟩) 3
      (93 / 100) rfl rfl (by decide) (by decide) (by decide) (by norm_num)
      (by norm_num)).2.2.2.2.2.2.2.1⟩

/-- C7 fails as stated: for the response `{prediction: 3, probability: 0.93}` the certainty is
set to "93.0" instead of staying blank, and the toast raised is the success toast. -/
theorem unknown_prediction_reports_success :
    (handleSubmit selectedA (fun _ => .resolved ⟨3, 93 / 100⟩)).state.result = .undefined ∧
    (handleSubmit selectedA (fun _ => .resolved ⟨3, 93 / 100⟩)).state.probability = "93.0" ∧
    (handleSubmit selectedA (fun _ => .resolved ⟨3, 93 / 100⟩)).toasts = [successToast] ∧
    successToast.status = .success := by
  have hc : clasification 3 = .undefined := rfl
  simp only [handleSubmit, selectedA, handleSubmitSettle, hc, toFixed1_sample_93]
  exact ⟨trivial, trivial, trivial, rfl⟩

/-! ## Preview URLs -/

theorem run_cons (mint : ℕ → String) (w : World) (e : Event) (es : List Event) :
    run mint w (e :: es) = run mint (step mint w e) es := rfl

/-- C8, as the code has it. `handleImageChange` never releases an object URL: after `N`
consecutive selections of a file the store holds everything it held before, followed by the
`N` URLs created for the selections, so its size has grown by `N`; the preview is the URL
created last. -/
theorem selections_allocate (mint : ℕ → String) (w : World) (files : List File) :
    (run mint w (files.map (fun f => Event.change (some f)))).browser.allocated =
      w.browser.allocated ++
        (List.range files.length).map (fun i => mint (w.browser.minted + i)) ∧
    (run mint w (files.map (fun f => Event.change (some f)))).browser.allocated.length =
      w.browser.allocated.length + files.length ∧
    (run mint w (files.map (fun f => Event.change (some f)))).ui.imagePreview =
      (if files = [] then w.ui.imagePreview
       else mint (w.browser.minted + (files.length - 1))) := by
  have key : ∀ (fs : List File) (w : World),
      (run mint w (fs.map (fun f => Event.change (some f)))).browser.allocated =
        w.browser.allocated ++
          (List.range fs.length).map (fun i => mint (w.browser.minted + i)) := by
    intro fs
    induction fs with
    | nil => intro w; simp [run]
    | cons f fs ih =>
      intro w
      rw [List.map_cons, run_cons, ih]
      simp only [step, handleImageChange, createObjectURL, List.length_cons,
        List.range_succ_eq_map, List.map_cons, List.map_map, List.append_assoc,
        List.singleton_append, Nat.add_zero]
      congr 2
      apply List.map_congr_left
      intro i _
      simp only [Function.comp]
      congr 1
      omega
  have last : ∀ (fs : List File) (w : World),
      (run mint w (fs.map (fun f => Event.change (some f)))).ui.imagePreview =
        (if fs = [] then w.ui.imagePreview
         else mint (w.browser.minted + (fs.length - 1))) := by
    intro fs
    induction fs with
    | nil => intro w; simp [run]
    | cons f fs ih =>
      intro w
      rw [List.map_cons, run_cons, ih]
      by_cases hfs : fs = []
      · subst hfs
        simp [step, handleImageChange, createObjectURL]
      · have hlen : 0 < fs.length := List.length_pos.mpr hfs
        simp only [hfs, if_false, step, handleImageChange, createObjectURL, List.length_cons,
          reduceCtorEq]
        congr 1
        omega
  refine ⟨key files w, ?_, last files w⟩
  rw [key files w]
  simp

/-- C8 fails as stated: after two selections in a fresh browser both object URLs are still
allocated, the one of the first selection included, while the preview shows the second. -/
theorem two_selections_keep_both_urls :
    (run blobUrl World.initial
      [.change (some fileA), .change (some fileB)]).browser.allocated = ["blob:0", "blob:1"] ∧
    (run blobUrl World.initial
      [.change (some fileA), .change (some fileB)]).ui.imagePreview = "blob:1" := by
  decide

/-! ## A response that arrives after a new selection -/

/-- C9, as the code has it. There is no fencing of requests: when a file is selected and a
request issued earlier then settles, a fulfilled response is written into the state of the new
selection (category and certainty come from the response, image and preview from the new
selection, and a success toast is raised), and a rejected one leaves that state as it is and
raises an error toast. -/
theorem late_response_is_applied (mint : ℕ → String) (w : World) (file : File)
    (data : PredictBody) (error : AxiosError) :
    (run mint w [.change (some file), .settle (.resolved data)]).ui.image = some file ∧
    (run mint w [.change (some file), .settle (.resolved data)]).ui.imagePreview =
      (run mint w [.change (some file)]).ui.imagePreview ∧
    (run mint w [.change (some file), .settle (.resolved data)]).ui.result =
      clasification data.prediction ∧
    (run mint w [.change (some file), .settle (.resolved data)]).ui.probability =
      toFixed1 (jsMul (jsonNumber data.probability) 100) ∧
    (handleSubmitSettle (run mint w [.change (some file)]).ui (.resolved data)).toasts =
      [successToast] ∧
    (run mint w [.change (some file), .settle (.rejected error)]).ui =
      (run mint w [.change (some file)]).ui ∧
    (handleSubmitSettle (run mint w [.change (some file)]).ui (.rejected error)).toasts =
      [errorToast error] :=
  ⟨rfl, rfl, rfl, rfl, rfl, rfl, rfl⟩

/-- C9 fails as stated: a click while `fileA` is selected issues a request for `fileA`; when
`fileB` is selected next and the response `{prediction: 2, probability: 0.93}` of that request
arrives afterwards, the state of the new selection, which had a blank category and certainty,
gets the category "Malign" and the certainty "93.0" next to the image `fileB`. -/
theorem late_response_overwrites_selection :
    (handleSubmit (run blobUrl World.initial [.change (some fileA)]).ui
      (fun _ => .resolved ⟨2, 93 / 100⟩)).posts = [predictRequest fileA] ∧
    (run blobUrl World.initial [.change (some fileA), .change (some fileB)]).ui =
      { image := some fileB, imagePreview := "blob:1", result := .str "", probability := "" } ∧
    (run blobUrl World.initial [.change (some fileA), .change (some fileB),
      .settle (.resolved ⟨2, 93 / 100⟩)]).ui =
      { image := some fileB, imagePreview := "blob:1", result := .str "Malign",
        probability := "93.0" } := by
  have hc : clasification 2 = .str "Malign" := rfl
  refine ⟨rfl, by decide, ?_⟩
  simp only [run, List.foldl, step, handleImageChange, createObjectURL, World.initial,
    State.initial, handleSubmitSettle, hc, toFixed1_sample_93]
  decide

/-! ## The preview and the image go together -/

theorem step_preview_iff (mint : ℕ → String) (hmint : ∀ k, mint k ≠ "") (w : World) (e : Event)
    (h : w.ui.imagePreview ≠ "" ↔ w.ui.image ≠ none) :
    (step mint w e).ui.imagePreview ≠ "" ↔ (step mint w e).ui.image ≠ none := by
  cases e with
  | change file =>
    cases file with
    | none => exact h
    | some f =>
      simp only [step, handleImageChange, createObjectURL]
      exact ⟨fun _ => by simp, fun _ => hmint _⟩
  | submit net =>
    simp only [step]
    rw [(handleSubmit_image w.ui net).1, (handleSubmit_image w.ui net).2]
    exact h
  | settle outcome =>
    simp only [step]
    rw [(handleSubmitSettle_image w.ui outcome).1, (handleSubmitSettle_image w.ui outcome).2]
    exact h

theorem run_preview_iff (mint : ℕ → String) (hmint : ∀ k, mint k ≠ "") (events : List Event) :
    ∀ w : World, (w.ui.imagePreview ≠ "" ↔ w.ui.image ≠ none) →
      ((run mint w events).ui.imagePreview ≠ "" ↔ (run mint w events).ui.image ≠ none) := by
  induction events with
  | nil => intro w h; exact h
  | cons e es ih =>
    intro w h
    rw [run_cons]
    exact ih _ (step_preview_iff mint hmint w e h)

/-- C10. When every object URL the browser hands out is a non-empty string, in every state
reached from the freshly mounted component by file-input changes, clicks on the button and
settling requests, the preview is non-empty exactly when an image is selected; a file-input
change that carries no file changes nothing; and whenever the "Check for Cancer" button is
rendered, `handleSubmit` finds an image, issues the request for it and does not raise the
"No image uploaded" toast. -/
theorem preview_iff_image (mint : ℕ → String) (hmint : ∀ k, mint k ≠ "")
    (events : List Event) :
    ((run mint World.initial events).ui.imagePreview ≠ "" ↔
      (run mint World.initial events).ui.image ≠ none) ∧
    (∀ (b : Browser) (s : State), handleImageChange mint b s none = (s, b)) ∧
    (∀ w : World, step mint w (.change none) = w) ∧
    ((render (run mint World.initial events).ui).submitButton = true →
      ∀ net : Request → Outcome, ∃ image : File,
        (run mint World.initial events).ui.image = some image ∧
        (handleSubmit (run mint World.initial events).ui net).posts = [predictRequest image] ∧
        noImageToast ∉ (handleSubmit (run mint World.initial events).ui net).toasts) := by
  have hinv := run_preview_iff mint hmint events World.initial
    (by simp [World.initial, State.initial])
  refine ⟨hinv, fun _ _ => rfl, fun _ => rfl, ?_⟩
  intro hbtn net
  have hprev : (run mint World.initial events).ui.imagePreview ≠ "" := by
    simpa [render] using hbtn
  obtain ⟨image, himg⟩ := Option.ne_none_iff_exists'.mp (hinv.mp hprev)
  refine ⟨image, himg, ?_, ?_⟩
  · rw [handleSubmit_of_image net himg]
  · rw [handleSubmit_of_image net himg]
    cases net (predictRequest image) with
    | resolved data =>
      simp only [handleSubmitSettle, List.mem_singleton]
      intro hcon
      have : Status.error = Status.success := congrArg Toast.status hcon
      exact absurd this (by decide)
    | rejected error =>
      simp only [handleSubmitSettle, List.mem_singleton]
      intro hcon
      have : "No image uploaded" = "Error uploading image" := congrArg Toast.title hcon
      exact absurd this (by decide)

/-- Witness of C10: the URLs `blob:k` are non-empty; after `fileA` is selected the preview is
non-empty, the image is present and a click issues the request for `fileA`. -/
theorem preview_iff_image_witness :
    (∀ k, blobUrl k ≠ "") ∧
    ((run blobUrl World.initial [.change (some fileA)]).ui.imagePreview ≠ "" ↔
      (run blobUrl World.initial [.change (some fileA)]).ui.image ≠ none) ∧
    (render (run blobUrl World.initial [.change (some fileA)]).ui).submitButton = true :=
  ⟨blobUrl_ne_empty,
    (preview_iff_image blobUrl blobUrl_ne_empty [.change (some fileA)]).1, by decide⟩

end UploadPhoto
